import Mathlib

/-!
Verification development for the CopyGum clipboard manager's
capture-and-classification pipeline.

Shallow embedding of:
  * `electron/contentAnalyzer.ts` — `analyzeContentType`,
    `detectSourcePlatform`, `enhancedDetection`, `calculateEntropy`;
  * the `DatabaseService` retention policy in `src/hooks` —
    `findClipboardItemByContent`, `addClipboardItem`, `cleanupOldItems`,
    `getClipboardItems`;
  * the clipboard poller tick of `electron/main.ts`
    (`startClipboardMonitoring`) and the `set-clipboard-text` handler.

JavaScript regular-expression tests are embedded as decidable predicates
over `List Char`; each matcher is a hand-translation of the regex it is
named after (the regexes involved are simple enough that greedy matching
with the noted backtracking cases is exact).  JavaScript string `.length`
is UTF-16 code units; here strings are lists of code points, which agrees
on all inputs used by the theorems.  `Math.log2`-based entropy comparison
`entropy > 3.5` is embedded exactly over the integers via
`n ^ (2n) > (∏ cᵢ ^ cᵢ)² · 2 ^ (7n)`, which is equivalent to the real
inequality (floating-point rounding could disagree only within ~1e-15 of
the threshold).
-/

namespace CopyGum

/-- JavaScript `\s` (WhiteSpace ∪ LineTerminator) character set, as used by
`String.prototype.trim` and regex `\s`. -/
def jsWhitespace : List Char :=
  [Char.ofNat 9, Char.ofNat 10, Char.ofNat 11, Char.ofNat 12, Char.ofNat 13,
   Char.ofNat 32, Char.ofNat 160, Char.ofNat 0x1680,
   Char.ofNat 0x2000, Char.ofNat 0x2001, Char.ofNat 0x2002, Char.ofNat 0x2003,
   Char.ofNat 0x2004, Char.ofNat 0x2005, Char.ofNat 0x2006, Char.ofNat 0x2007,
   Char.ofNat 0x2008, Char.ofNat 0x2009, Char.ofNat 0x200A,
   Char.ofNat 0x2028, Char.ofNat 0x2029, Char.ofNat 0x202F,
   Char.ofNat 0x205F, Char.ofNat 0x3000, Char.ofNat 0xFEFF]

def isJsWs (c : Char) : Bool := jsWhitespace.contains c

/-- JavaScript LineTerminator set (what regex `.` refuses to match). -/
def isLineTerm (c : Char) : Bool :=
  c = Char.ofNat 10 || c = Char.ofNat 13 || c = Char.ofNat 0x2028 || c = Char.ofNat 0x2029

/-- Regex `\w` class `[A-Za-z0-9_]`. -/
def isWordChar (c : Char) : Bool := c.isAlpha || c.isDigit || c = '_'

/-- `String.prototype.trim` on the character list. -/
def jsTrim (l : List Char) : List Char :=
  ((l.dropWhile isJsWs).reverse.dropWhile isJsWs).reverse

def jsTrimStr (s : String) : String := String.mk (jsTrim s.data)

/-- Regex `/^sk-[a-zA-Z0-9-]{40,}$/`. -/
def matchOpenAIKey (t : List Char) : Bool :=
  match t with
  | 's' :: 'k' :: '-' :: rest =>
      decide (40 ≤ rest.length) && rest.all (fun c => c.isAlpha || c.isDigit || c = '-')
  | _ => false

/-- Anchored `pre` followed by exactly `n` characters of `[a-zA-Z0-9]`. -/
def matchKeyBody (pre : List Char) (n : Nat) (t : List Char) : Bool :=
  pre.isPrefixOf t && decide (t.length = pre.length + n) && (t.drop pre.length).all Char.isAlphanum

/-- Regex `/^pk_test_[a-zA-Z0-9]{24}$/` or `/^sk_test_[a-zA-Z0-9]{24}$/`. -/
def matchStripeKey (t : List Char) : Bool :=
  matchKeyBody "pk_test_".data 24 t || matchKeyBody "sk_test_".data 24 t

/-- Regex `/^ghp_[a-zA-Z0-9]{36}$/`. -/
def matchGithubToken (t : List Char) : Bool :=
  matchKeyBody "ghp_".data 36 t

/-- Regex `/^[A-Za-z0-9+/]{40,}={0,2}$/`. -/
def matchBase64Token (t : List Char) : Bool :=
  let eqs := (t.reverse.takeWhile (fun c => c = '=')).length
  let body := t.take (t.length - eqs)
  decide (eqs ≤ 2) && decide (40 ≤ body.length) &&
    body.all (fun c => c.isAlphanum || c = '+' || c = '/')

/-- Word-boundary keyword occurrence (regex `\bkw\b` somewhere in the input);
`prev` carries the character immediately before the current position. -/
def hasKeywordAux (kw : List Char) : Option Char → List Char → Bool
  | prev, [] =>
      (match prev with
       | none => true
       | some p => !(isWordChar p)) && kw.isEmpty
  | prev, c :: rest =>
      ((match prev with
        | none => true
        | some p => !(isWordChar p)) &&
       kw.isPrefixOf (c :: rest) &&
       (match List.drop kw.length (c :: rest) with
        | [] => true
        | d :: _ => !(isWordChar d))) ||
      hasKeywordAux kw (some c) rest

def hasAnyKeyword (kws : List String) (t : List Char) : Bool :=
  kws.any (fun k => hasKeywordAux k.data none t)

def jsKeywords : List String :=
  ["function", "const", "let", "var", "class", "import", "export", "if", "else",
   "for", "while", "return"]

def pyKeywords : List String :=
  ["def", "class", "import", "from", "if", "elif", "else", "for", "while",
   "return", "try", "except"]

/-- Regex `/^\s*[\w.]+\s*[=:]\s*/`. -/
def matchAssignment (t : List Char) : Bool :=
  let l1 := t.dropWhile isJsWs
  let run := l1.takeWhile (fun c => isWordChar c || c = '.')
  !run.isEmpty &&
    (let nxt := ((l1.drop run.length).dropWhile isJsWs).head?
     nxt == some '=' || nxt == some ':')

/-- Regex `/{\s*[\s\S]*\s*}/` — an opening brace with a closing brace after it. -/
def matchBraces (t : List Char) : Bool :=
  match t.dropWhile (fun c => c ≠ '{') with
  | _ :: rest => rest.contains '}'
  | [] => false

/-- Scan for a closing `*/` with no line terminator before it (regex `.*\*\//`). -/
def findCloseNoNewline : List Char → Bool
  | '*' :: '/' :: _ => true
  | c :: rest => !(isLineTerm c) && findCloseNoNewline rest
  | [] => false

/-- Regex `/^\s*\/\/.*|^\s*\/\*.*\*\/|^\s*#.*/`. -/
def matchComments (t : List Char) : Bool :=
  let l1 := t.dropWhile isJsWs
  "//".data.isPrefixOf l1 ||
  ("/*".data.isPrefixOf l1 && findCloseNoNewline (l1.drop 2)) ||
  "#".data.isPrefixOf l1

/-- Regex `/;\s*$/`. -/
def matchSemicolonEnd (t : List Char) : Bool :=
  (t.reverse.dropWhile isJsWs).head? == some ';'

/-- Regex `/^\s*(public|private|protected|static)\s+/`. -/
def matchAccessModifier (t : List Char) : Bool :=
  let l1 := t.dropWhile isJsWs
  ["public", "private", "protected", "static"].any (fun kw =>
    kw.data.isPrefixOf l1 &&
      (match l1.drop kw.data.length with
       | d :: _ => isJsWs d
       | [] => false))

/-- Occurrence of `.` followed by one of `exts`, optionally requiring a
trailing `:` or `.` (regex `\.(ext|…)[:.]` resp. `\.(ext|…)`). -/
def hasDotExt (exts : List String) (withFollow : Bool) : List Char → Bool
  | [] => false
  | '.' :: rest =>
      exts.any (fun e =>
        e.data.isPrefixOf rest &&
          (!withFollow ||
            (match rest.drop e.data.length with
             | c :: _ => c = ':' || c = '.'
             | [] => false))) ||
      hasDotExt exts withFollow rest
  | _ :: rest => hasDotExt exts withFollow rest

def codeExts : List String := ["js", "ts", "py", "java", "cpp", "cs", "php", "rb", "go", "rs"]

/-- The eight `codeIndicators` of `analyzeContentType`, in source order. -/
def codeIndicatorFlags (t : List Char) : List Bool :=
  [hasAnyKeyword jsKeywords t,
   hasAnyKeyword pyKeywords t,
   matchAssignment t,
   matchBraces t,
   matchComments t,
   matchSemicolonEnd t,
   matchAccessModifier t,
   hasDotExt codeExts true t]

def codeIndicatorDescs : List String :=
  ["JavaScript keywords", "Python keywords", "Assignment pattern",
   "Code block braces", "Code comments", "Statement terminator",
   "Access modifiers", "File extension in content"]

/-- Each matched indicator contributes 15 to `codeScore`. -/
def codeScore (t : List Char) : Nat :=
  15 * (codeIndicatorFlags t).count true

def codePatterns (t : List Char) : List String :=
  ((codeIndicatorFlags t).zip codeIndicatorDescs).filterMap
    (fun p => if p.1 then some p.2 else none)

/-- The pattern pushed before the code scan when the base64-token regex fires
and `trimmed.length > 40`. -/
def basePatterns (t : List Char) : List String :=
  if matchBase64Token t && decide (40 < t.length) then
    ["Base64 pattern (possible token)"]
  else []

/-- `trimmed.startsWith('{') && trimmed.endsWith('}')` or the bracket variant. -/
def jsonLike (t : List Char) : Bool :=
  (t.head? == some '{' && t.getLast? == some '}') ||
  (t.head? == some '[' && t.getLast? == some ']')

def isJsonWs (c : Char) : Bool := c = ' ' || c = '\t' || c = '\n' || c = '\r'

def skipJWs (l : List Char) : List Char := l.dropWhile isJsonWs

/-- JSON string body after the opening quote; consumes through the closing
quote, validating escapes and rejecting raw control characters. -/
def jsonStringRest : List Char → Option (List Char)
  | '"' :: rest => some rest
  | '\\' :: e :: rest =>
      if e = '"' ∨ e = '\\' ∨ e = '/' ∨ e = 'b' ∨ e = 'f' ∨ e = 'n' ∨ e = 'r' ∨ e = 't' then
        jsonStringRest rest
      else if e = 'u' then
        match rest with
        | h1 :: h2 :: h3 :: h4 :: rest2 =>
            if [h1, h2, h3, h4].all (fun c =>
                 c.isDigit || ('a' ≤ c ∧ c ≤ 'f') || ('A' ≤ c ∧ c ≤ 'F')) then
              jsonStringRest rest2
            else none
        | _ => none
      else none
  | c :: rest =>
      if c.toNat < 0x20 then none else jsonStringRest rest
  | [] => none

/-- JSON number at the head of the input. -/
def jsonNumberRest (l : List Char) : Option (List Char) :=
  let l1 := match l with
            | '-' :: r => r
            | _ => l
  let intRest? : Option (List Char) :=
    match l1 with
    | '0' :: r => some r
    | c :: r => if c.isDigit then some (r.dropWhile Char.isDigit) else none
    | [] => none
  match intRest? with
  | none => none
  | some r2 =>
    let r3? : Option (List Char) :=
      match r2 with
      | '.' :: d :: r => if d.isDigit then some (r.dropWhile Char.isDigit) else none
      | _ => some r2
    match r3? with
    | none => none
    | some r4 =>
      match r4 with
      | e :: r5 =>
          if e = 'e' ∨ e = 'E' then
            let r6 := match r5 with
                      | '+' :: r => r
                      | '-' :: r => r
                      | _ => r5
            match r6 with
            | d :: r7 => if d.isDigit then some (r7.dropWhile Char.isDigit) else none
            | [] => none
          else some r4
      | [] => some r4

inductive JMode
  | value
  | members
  | elements
deriving DecidableEq

/-- Fuel-indexed JSON recognizer (grammar of `JSON.parse`): returns the
unconsumed remainder on success. -/
def parseJ : Nat → JMode → List Char → Option (List Char)
  | 0, _, _ => none
  | fuel + 1, JMode.value, l =>
      match l with
      | 't' :: 'r' :: 'u' :: 'e' :: r => some r
      | 'f' :: 'a' :: 'l' :: 's' :: 'e' :: r => some r
      | 'n' :: 'u' :: 'l' :: 'l' :: r => some r
      | '"' :: r => jsonStringRest r
      | '{' :: r =>
          (match skipJWs r with
           | '}' :: r2 => some r2
           | r1 => parseJ fuel JMode.members r1)
      | '[' :: r =>
          (match skipJWs r with
           | ']' :: r2 => some r2
           | r1 => parseJ fuel JMode.elements r1)
      | _ => jsonNumberRest l
  | fuel + 1, JMode.members, l =>
      match l with
      | '"' :: r =>
          (match jsonStringRest r with
           | none => none
           | some r1 =>
             match skipJWs r1 with
             | ':' :: r2 =>
                 (match parseJ fuel JMode.value (skipJWs r2) with
                  | none => none
                  | some r3 =>
                    match skipJWs r3 with
                    | ',' :: r4 => parseJ fuel JMode.members (skipJWs r4)
                    | '}' :: r4 => some r4
                    | _ => none)
             | _ => none)
      | _ => none
  | fuel + 1, JMode.elements, l =>
      match parseJ fuel JMode.value l with
      | none => none
      | some r =>
        match skipJWs r with
        | ',' :: r2 => parseJ fuel JMode.elements (skipJWs r2)
        | ']' :: r2 => some r2
        | _ => none

/-- `JSON.parse(trimmed)` succeeds (strict parse of a complete JSON text). -/
def jsonValid (t : List Char) : Bool :=
  match parseJ (2 * t.length + 4) JMode.value (skipJWs t) with
  | some r => (skipJWs r).isEmpty
  | none => false

/-- Regex `/^https?:\/\/[^\s/$.?#].[^\s]*$/`. -/
def matchUrl (t : List Char) : Bool :=
  match t with
  | 'h' :: 't' :: 't' :: 'p' :: rest =>
      let rest2? : Option (List Char) :=
        match rest with
        | 's' :: ':' :: '/' :: '/' :: r => some r
        | ':' :: '/' :: '/' :: r => some r
        | _ => none
      (match rest2? with
       | some (c1 :: c2 :: r) =>
           !(isJsWs c1) && c1 ≠ '/' && c1 ≠ '$' && c1 ≠ '.' && c1 ≠ '?' && c1 ≠ '#' &&
           !(isLineTerm c2) && r.all (fun c => !(isJsWs c))
       | _ => false)
  | _ => false

def isLocalChar (c : Char) : Bool :=
  c.isAlphanum || ['.', '_', '%', '+', '-'].contains c

def isDomainChar (c : Char) : Bool :=
  c.isAlphanum || c = '.' || c = '-'

/-- Domain part of `/^…@[a-zA-Z0-9.-]+\.[a-zA-Z]{2,}$/`; `ok` records whether a
domain character has been consumed before the candidate final dot. -/
def emailDomain : Bool → List Char → Bool
  | _, [] => false
  | ok, c :: rest =>
      (c = '.' && ok && decide (2 ≤ rest.length) && rest.all Char.isAlpha) ||
      (isDomainChar c && emailDomain true rest)

/-- Regex `/^[a-zA-Z0-9._%+-]+@[a-zA-Z0-9.-]+\.[a-zA-Z]{2,}$/`. -/
def matchEmail (t : List Char) : Bool :=
  let localPart := t.takeWhile isLocalChar
  !localPart.isEmpty &&
    (match t.drop localPart.length with
     | '@' :: rest => emailDomain false rest
     | _ => false)

/-- Regex `/^data:image\/(png|jpeg|jpg|gif|webp|svg\+xml);base64,/`. -/
def matchDataUriImage (t : List Char) : Bool :=
  ["png", "jpeg", "jpg", "gif", "webp", "svg+xml"].any (fun e =>
    ("data:image/" ++ e ++ ";base64,").data.isPrefixOf t)

/-- The three base64 magic-prefix regexes for PNG / JPEG / GIF. -/
def matchBase64ImageSig (t : List Char) : Bool :=
  "iVBORw0KGgoAAAANSUhEUgAA".data.isPrefixOf t ||
  "/9j/".data.isPrefixOf t ||
  "R0lGODlh".data.isPrefixOf t

def isHexChar (c : Char) : Bool :=
  c.isDigit || (decide ('a' ≤ c) && decide (c ≤ 'f')) || (decide ('A' ≤ c) && decide (c ≤ 'F'))

/-- Regex `/^#([A-Fa-f0-9]{6}|[A-Fa-f0-9]{3})$/`. -/
def matchHexColor (t : List Char) : Bool :=
  match t with
  | '#' :: h => (h.length == 6 || h.length == 3) && h.all isHexChar
  | _ => false

def passwordSymbols : List Char :=
  ['!', '@', '#', '$', '%', '^', '&', '*', '(', ')', ',', '.', '?', '"', ':',
   '{', '}', '|', '<', '>']

/-- `calculateEntropy(trimmed) > 3.5`, embedded exactly over the integers:
Shannon entropy `log2 n − (1/n) Σ cᵢ log2 cᵢ` exceeds 7/2 iff
`n ^ (2n) > (∏ cᵢ ^ cᵢ)² · 2 ^ (7n)`. -/
def entropyExceeds (t : List Char) : Bool :=
  let n := t.length
  let counts := t.dedup.map (fun c => t.count c)
  decide (((counts.map (fun k => k ^ k)).prod) ^ 2 * 2 ^ (7 * n) < n ^ (2 * n))

structure ContentTypeResult where
  type : String
  confidence : Nat
  patterns : List String
deriving DecidableEq, Repr

/-- The tail of `analyzeContentType` after the JSON branch: URL, email, image,
color, entropy checks and the text fallback. -/
def analyzeAfterJson (t : List Char) : ContentTypeResult :=
  if matchUrl t then ⟨"url", 95, ["HTTP/HTTPS URL format"]⟩
  else if matchEmail t then ⟨"email", 95, ["Email format"]⟩
  else if matchDataUriImage t then ⟨"image", 95, ["Data URI image format"]⟩
  else if matchBase64ImageSig t then ⟨"image", 90, ["Base64 image signature (PNG/JPEG/GIF)"]⟩
  else if matchHexColor t then ⟨"color", 95, ["Hex color code"]⟩
  else if entropyExceeds t && decide (8 ≤ t.length) && decide (t.length ≤ 128) &&
          t.any Char.isUpper && t.any Char.isLower && t.any Char.isDigit &&
          t.any passwordSymbols.contains then
    ⟨"password", 70, ["High entropy with mixed character types"]⟩
  else ⟨"text", 60, ["No specific patterns detected"]⟩

/-- `analyzeContentType` on the already-trimmed character list. -/
def analyzeCore (t : List Char) : ContentTypeResult :=
  if matchOpenAIKey t then ⟨"api-key", 95, ["OpenAI API key format"]⟩
  else if matchStripeKey t then ⟨"api-key", 95, ["Stripe API key format"]⟩
  else if matchGithubToken t then ⟨"api-key", 95, ["GitHub personal access token"]⟩
  else if 30 ≤ codeScore t then
    ⟨"code", min 95 (codeScore t), basePatterns t ++ codePatterns t⟩
  else if jsonLike t then
    if jsonValid t then ⟨"json", 90, ["Valid JSON structure"]⟩
    else analyzeAfterJson t
  else analyzeAfterJson t

/-- `analyzeContentType` of `electron/contentAnalyzer.ts`. -/
def analyzeContentType (s : String) : ContentTypeResult :=
  analyzeCore (jsTrim s.data)

structure SourcePlatformResult where
  platform : String
  confidence : Nat
  indicators : List String
deriving DecidableEq, Repr

/-- Contiguous-substring occurrence (`String.prototype.includes`). -/
def containsChars (p : List Char) : List Char → Bool
  | [] => p.isPrefixOf []
  | c :: rest => p.isPrefixOf (c :: rest) || containsChars p rest

def containsStr (p : String) (t : List Char) : Bool := containsChars p.data t

def platformExts : List String :=
  ["ts", "js", "py", "java", "cpp", "cs", "php", "rb", "go", "rs", "tsx", "jsx"]

/-- Scan for `.` followed by one of `ts|js|py|java` with no line terminator
seen first (the `.*\.(ts|js|py|java)` tail of the file-operation regex). -/
def findDotExtNoNewline : List Char → Bool
  | [] => false
  | c :: rest =>
      if isLineTerm c then false
      else
        (c = '.' && ["ts", "js", "py", "java"].any (fun e => e.data.isPrefixOf rest)) ||
        findDotExtNoNewline rest

/-- Regex `/^\s*⏺\s*Write\(.*\.(ts|js|py|java)/` on the trimmed input. -/
def matchVsFileOp (t : List Char) : Bool :=
  match t with
  | c :: rest =>
      c = Char.ofNat 0x23FA &&
        (let l1 := rest.dropWhile isJsWs
         "Write(".data.isPrefixOf l1 && findDotExtNoNewline (l1.drop 6))
  | [] => false

/-- Occurrence of `pat` with no line terminator before it (regex `.*pat`). -/
def containsNoNewline (pat : List Char) : List Char → Bool
  | [] => pat.isPrefixOf []
  | c :: rest =>
      pat.isPrefixOf (c :: rest) || (!(isLineTerm c) && containsNoNewline pat rest)

/-- Regex `/^\s*\/\/.*TODO|^\s*\/\/.*FIXME|^\s*#.*TODO/`. -/
def matchTodoComment (t : List Char) : Bool :=
  let l1 := t.dropWhile isJsWs
  ("//".data.isPrefixOf l1 &&
    (containsNoNewline "TODO".data (l1.drop 2) || containsNoNewline "FIXME".data (l1.drop 2))) ||
  ("#".data.isPrefixOf l1 && containsNoNewline "TODO".data (l1.drop 1))

/-- Regex `/\x1b\[[0-9;]*m/`. -/
def hasAnsi : List Char → Bool
  | [] => false
  | c :: rest =>
      (c = Char.ofNat 27 &&
        (match rest with
         | '[' :: r2 => (r2.dropWhile (fun d => d.isDigit || d = ';')).head? == some 'm'
         | _ => false)) ||
      hasAnsi rest

/-- Regex `/<[a-z][\s\S]*>/i`. -/
def hasHtmlTag : List Char → Bool
  | [] => false
  | '<' :: c :: rest => (c.isAlpha && rest.contains '>') || hasHtmlTag (c :: rest)
  | _ :: rest => hasHtmlTag rest

/-- Unix-path regex (slash, then one or more of letters, digits, underscore,
dash, slash, dot, to the end) applied to `trimmed.split('\n')[0]`. -/
def matchUnixPath (t : List Char) : Bool :=
  match t.takeWhile (fun c => c ≠ '\n') with
  | '/' :: rest =>
      !rest.isEmpty && rest.all (fun c => c.isAlphanum || ['_', '-', '/', '.'].contains c)
  | _ => false

/-- Regex `/^[A-Z]:\\[a-zA-Z0-9_\-\\]+$/` applied to `trimmed.split('\n')[0]`. -/
def matchWinPath (t : List Char) : Bool :=
  match t.takeWhile (fun c => c ≠ '\n') with
  | c :: ':' :: '\\' :: rest =>
      decide ('A' ≤ c) && decide (c ≤ 'Z') && !rest.isEmpty &&
        rest.all (fun d => d.isAlphanum || ['_', '-', '\\'].contains d)
  | _ => false

def indProjectPaths (t : List Char) : Bool :=
  containsStr "src/" t || containsStr "lib/" t || containsStr "components/" t

def indStackTrace (t : List Char) : Bool :=
  containsStr "Error:" t && containsStr "at " t

def indUrls (t : List Char) : Bool :=
  containsStr "http://" t || containsStr "https://" t

def indDomRefs (t : List Char) : Bool :=
  containsStr "window." t || containsStr "document." t

def indMention (t : List Char) : Bool :=
  t.contains '@' && decide (t.length < 280) && !(containsStr ".com" t)

/-- `/^.{1,280}$/.test(trimmed) && trimmed.includes('#')`. -/
def indHashtags (t : List Char) : Bool :=
  decide (1 ≤ t.length) && decide (t.length ≤ 280) &&
    t.all (fun c => !(isLineTerm c)) && t.contains '#'

def indMdHeaders (t : List Char) : Bool :=
  containsStr "# " t || containsStr "## " t

/-- The accumulated `indicators` array, in source push order. -/
def platformIndicators (t : List Char) : List String :=
  (if indProjectPaths t then ["Project structure paths"] else []) ++
  (if matchTodoComment t then ["Code comments with TODO/FIXME"] else []) ++
  (if indStackTrace t then ["Stack trace format"] else []) ++
  (if indUrls t then ["Contains URLs"] else []) ++
  (if indDomRefs t then ["Browser DOM references"] else []) ++
  (if indMention t then ["Mention pattern (possible social media)"] else []) ++
  (if indHashtags t then ["Short text with hashtags"] else []) ++
  (if indMdHeaders t then ["Markdown headers"] else [])

/-- `detectSourcePlatform` of `electron/contentAnalyzer.ts`.  The boost branch
fires exactly when an indicator containing "Code" or "Project" was pushed,
i.e. the project-paths or TODO-comment indicator. -/
def detectSourcePlatform (s : String) : SourcePlatformResult :=
  let t := jsTrim s.data
  if containsStr "Write(" t && hasDotExt platformExts false t then
    ⟨"VS Code", 85, ["VS Code Write command pattern"]⟩
  else if matchVsFileOp t then ⟨"VS Code", 90, ["VS Code file operation"]⟩
  else if ("$ ".data).isPrefixOf t || ("> ".data).isPrefixOf t then
    ⟨"Terminal", 80, ["Command prompt prefix"]⟩
  else if hasAnsi t then ⟨"Terminal", 85, ["ANSI color codes"]⟩
  else if hasHtmlTag t then ⟨"Browser", 75, ["HTML tags"]⟩
  else if matchUnixPath t then ⟨"File Explorer", 70, ["Unix file path"]⟩
  else if matchWinPath t then ⟨"File Explorer", 70, ["Windows file path"]⟩
  else if containsStr "- [ ]" t || containsStr "- [x]" t then
    ⟨"Notes App", 75, ["Markdown checkboxes"]⟩
  else if indProjectPaths t || matchTodoComment t then
    ⟨"VS Code", 70, platformIndicators t⟩
  else ⟨"Unknown", 20, platformIndicators t⟩

structure DetectionResult where
  contentType : String
  sourceApp : String
  confidence : Nat
  reasoning : List String
deriving DecidableEq, Repr

/-- `enhancedDetection` of `electron/contentAnalyzer.ts`. -/
def enhancedDetection (content detectedApp : String) : DetectionResult :=
  let c := analyzeContentType content
  let p := detectSourcePlatform content
  let ctLine := "Content type: " ++ c.type ++ " (" ++ Nat.repr c.confidence ++ "% confidence)"
  if 70 < p.confidence then
    ⟨c.type, p.platform, p.confidence,
     ("Content analysis suggests " ++ p.platform ++ " (" ++ Nat.repr p.confidence ++
        "% confidence)") :: (p.indicators ++ [ctLine] ++ c.patterns)⟩
  else if detectedApp ≠ "" ∧ detectedApp ≠ "System" ∧ detectedApp ≠ "Finder" then
    ⟨c.type, detectedApp, 60, ("Using detected app: " ++ detectedApp) :: ctLine :: c.patterns⟩
  else
    ⟨c.type, p.platform, max 30 p.confidence,
     ("Fallback to content analysis: " ++ p.platform) :: ctLine :: c.patterns⟩

/-! ## Retention manager (`DatabaseService`, IndexedDB path) -/

structure ClipboardItem where
  id : String
  content : String
  itemType : String
  timestamp : Int
  source : String
  isPinned : Bool
  categories : List String
deriving DecidableEq, Repr

structure Settings where
  maxItems : Nat
  autoDeleteDays : Nat
deriving DecidableEq, Repr

/-- `items.sort((a, b) => b.timestamp - a.timestamp)` — newest first. -/
def dbSort (store : List ClipboardItem) : List ClipboardItem :=
  List.insertionSort (fun a b => b.timestamp ≤ a.timestamp) store

/-- `getClipboardItems(limit)` — all items sorted newest-first, truncated. -/
def getClipboardItems (store : List ClipboardItem) (limit : Nat) : List ClipboardItem :=
  (dbSort store).take limit

/-- `findClipboardItemByContent` — searches only the 1000 most recent items. -/
def findClipboardItemByContent (store : List ClipboardItem) (content : String) :
    Option ClipboardItem :=
  (getClipboardItems store 1000).find? (fun i => i.content == content)

/-- `isProtectedItem` inside `cleanupOldItems`: pinned or categorized. -/
def isProtectedItem (i : ClipboardItem) : Bool :=
  i.isPinned || !i.categories.isEmpty

/-- `itemsToDelete` of the count-based pass: `deletableItems.slice(maxItems)`
over the fetched item list. -/
def itemsToDelete (s : Settings) (items : List ClipboardItem) : List ClipboardItem :=
  (items.filter (fun i => !(isProtectedItem i))).drop s.maxItems

/-- Count-based pass of `cleanupOldItems`: runs only when the fetched count
exceeds `maxItems`, deleting `itemsToDelete` by id. -/
def countPass (s : Settings) (items store : List ClipboardItem) : List ClipboardItem :=
  if s.maxItems < items.length then
    store.filter (fun j => !((itemsToDelete s items).any (fun d => d.id == j.id)))
  else store

/-- `oldItems` of the age-based pass: unprotected items older than the
`autoDeleteDays` cutoff, computed over the item list fetched at entry. -/
def oldItems (s : Settings) (now : Int) (items : List ClipboardItem) : List ClipboardItem :=
  items.filter (fun i =>
    decide (i.timestamp < now - (s.autoDeleteDays : Int) * 86400000) && !(isProtectedItem i))

/-- `cleanupOldItems`: count-based pass followed by the age-based pass, both
computed from the item list fetched once at entry. -/
def cleanupOldItems (s : Settings) (now : Int) (store : List ClipboardItem) :
    List ClipboardItem :=
  let items := getClipboardItems store 1000
  (countPass s items store).filter
    (fun j => !((oldItems s now items).any (fun d => d.id == j.id)))

/-- `addClipboardItem`: content-duplicate lookup, then either a metadata-
preserving update (`db.put`) or an insert (`db.add`, modelled as append —
exact whenever the new item's id is fresh) followed by cleanup. -/
def addClipboardItem (s : Settings) (now : Int) (store : List ClipboardItem)
    (item : ClipboardItem) : List ClipboardItem :=
  match findClipboardItemByContent store item.content with
  | some existing =>
      let updated : ClipboardItem :=
        { existing with
          timestamp := item.timestamp,
          source := if item.source = "" then existing.source else item.source,
          itemType := if item.itemType = "" then existing.itemType else item.itemType }
      store.map (fun j => if j.id == existing.id then updated else j)
  | none => cleanupOldItems s now (store ++ [item])

/-- A finite sequence of ingest calls starting from the empty store; each
event is the captured item together with the wall-clock time of the call. -/
def ingestAll (s : Settings) (events : List (ClipboardItem × Int)) : List ClipboardItem :=
  events.foldl (fun st e => addClipboardItem s e.2 st e.1) []

/-! ## Clipboard poller (`startClipboardMonitoring` in `electron/main.ts`) -/

structure PollState where
  lastClipboardContent : String
  lastClipboardHash : String
  lastProcessedTime : Int
  /-- `isInternalCopy` is a boolean armed by the `set-clipboard-text` handler
  and cleared by a one-shot 1000 ms timer; modelled by the expiry instant. -/
  internalCopyUntil : Int
deriving DecidableEq, Repr

structure CaptureEvent where
  content : String
  timestamp : Int
  eventType : String
  source : String
  confidence : Nat
  reasoning : List String
deriving DecidableEq, Repr

structure TickResult where
  state : PollState
  event : Option CaptureEvent
deriving DecidableEq, Repr

/-- `currentContent.length + currentContent.substring(0, 50) +
currentContent.substring(currentContent.length - 50)` (JS clamps a negative
start to 0, as truncated subtraction does here). -/
def contentHash (c : String) : String :=
  Nat.repr c.length ++ String.mk (c.data.take 50) ++ String.mk (c.data.drop (c.length - 50))

/-- The body of a poller tick once a non-empty clipboard content has been
resolved: fast-path duplicate check, fingerprint/trim/timing check,
self-write suppression, and capture emission. -/
def tickWithContent (st : PollState) (current : String) (detectedApp : String)
    (now : Int) : TickResult :=
  if current = st.lastClipboardContent then ⟨st, none⟩
  else
    let h := contentHash current
    if h ≠ st.lastClipboardHash ∧
       jsTrimStr current ≠ jsTrimStr st.lastClipboardContent ∧
       500 < now - st.lastProcessedTime then
      if now < st.internalCopyUntil then
        ⟨{ st with lastClipboardContent := current }, none⟩
      else
        let analysis := enhancedDetection current detectedApp
        ⟨{ st with
            lastClipboardContent := current,
            lastClipboardHash := h,
            lastProcessedTime := now },
         some ⟨current, now, analysis.contentType, analysis.sourceApp,
               analysis.confidence, analysis.reasoning⟩⟩
    else ⟨st, none⟩

/-- One poller tick.  `clipText`/`clipImage` are the OS clipboard reads
(image already rendered to its data-URL), `detectedApp` the resolved
foreground-application label, `now` the tick instant. -/
def clipboardTick (st : PollState) (clipText : String) (clipImage : Option String)
    (detectedApp : String) (now : Int) : TickResult :=
  match (if clipText = "" then clipImage else some clipText) with
  | none => ⟨st, none⟩
  | some current => tickWithContent st current detectedApp now

/-- The `set-clipboard-text` IPC handler: arms self-write suppression for
1000 ms from `now` (the written text itself goes to the OS clipboard). -/
def setClipboardText (st : PollState) (now : Int) : PollState :=
  { st with internalCopyUntil := now + 1000 }

/-- Module-level initial poller state of `electron/main.ts`. -/
def initialPollState : PollState := ⟨"", "", 0, 0⟩

/-! ## Concrete inputs used by the claim theorems -/

def contentTypeEnum : List String :=
  ["api-key", "code", "json", "url", "email", "image", "color", "password", "text"]

/-- The spec scenario input `'{"a":1}'`. -/
def jsonScenario : String := String.mk ['{', '"', 'a', '"', ':', '1', '}']

/-- A brace-bounded non-JSON input of 12 distinct characters mixing upper,
lower, digit and symbol — entropy log2 12 ≈ 3.585 exceeds 3.5. -/
def c4Input : String :=
  String.mk ['{', 'A', 'b', '1', '!', 'c', 'd', 'e', 'f', 'g', 'h', '}']

def cexContentA : String :=
  String.mk (List.replicate 50 'a' ++ 'b' :: List.replicate 50 'a')

def cexContentB : String :=
  String.mk (List.replicate 50 'a' ++ 'c' :: List.replicate 50 'a')

def cexPollState : PollState :=
  (clipboardTick initialPollState cexContentA none "SomeApp" 1000).state

def c3Protected : ClipboardItem := ⟨"p", "pc", "text", 10, "App", true, []⟩

def c3Evictable : ClipboardItem := ⟨"e", "ec", "text", 5, "App", false, []⟩

def c3Item (i : Nat) : ClipboardItem :=
  ⟨Nat.repr i, "c", "text", (1000 : Int) - (i : Int), "App", false, []⟩

def c1Content (i : Nat) : String := String.mk (List.replicate (i + 1) 'a')

def c1Item (i : Nat) : ClipboardItem :=
  ⟨Nat.repr i, c1Content i, "text", (2000 : Int) - (i : Int), "App", false, []⟩

def c1Settings : Settings := ⟨2000, 30⟩

def c1Dup : ClipboardItem := ⟨"dup", c1Content 1000, "text", 3000, "App", false, []⟩

def c1Events : List (ClipboardItem × Int) :=
  ((List.range 1001).map (fun i => (c1Item i, (0 : Int)))) ++ [(c1Dup, 0)]

/-! ## Helper lemmas -/

theorem dropWhile_dropWhile (p : Char → Bool) (l : List Char) :
    (l.dropWhile p).dropWhile p = l.dropWhile p := by
  induction l with
  | nil => simp
  | cons c rest ih =>
      by_cases h : p c
      · simpa [List.dropWhile_cons, h] using ih
      · simp [List.dropWhile_cons, h]

theorem dropWhile_eq_self_of_pre {p : Char → Bool} {y x : List Char}
    (h : y <+: x) (hx : x.dropWhile p = x) : y.dropWhile p = y := by
  obtain ⟨t, rfl⟩ := h
  cases y with
  | nil => simp
  | cons a ys =>
      by_cases ha : p a
      · exfalso
        rw [List.cons_append, List.dropWhile_cons, if_pos ha] at hx
        have hle := (List.IsSuffix.sublist (@List.dropWhile_suffix Char (ys ++ t) p)).length_le
        rw [hx] at hle
        simp at hle
      · simp [List.dropWhile_cons, ha]

theorem jsTrim_eq_rdrop (l : List Char) :
    jsTrim l = List.rdropWhile isJsWs (l.dropWhile isJsWs) := rfl

theorem jsTrim_idem (l : List Char) : jsTrim (jsTrim l) = jsTrim l := by
  rw [jsTrim_eq_rdrop, jsTrim_eq_rdrop]
  rw [dropWhile_eq_self_of_pre (List.rdropWhile_prefix isJsWs (l.dropWhile isJsWs))
        (dropWhile_dropWhile isJsWs l)]
  rw [List.rdropWhile_eq_self_iff]
  intro hl
  exact List.rdropWhile_last_not isJsWs _ hl

/-! ## Claim theorems -/

/-- Claim C9: classification scenarios — a URL, a hex color and a small JSON
object classify as `url`/95, `color`/95 and `json`/90 respectively, and in
each case the earlier code-indicator scan accumulates fewer than 30 points. -/
theorem classify_scenarios :
    analyzeContentType "https://example.com/path" = ⟨"url", 95, ["HTTP/HTTPS URL format"]⟩ ∧
    analyzeContentType "#FF5733" = ⟨"color", 95, ["Hex color code"]⟩ ∧
    analyzeContentType jsonScenario = ⟨"json", 90, ["Valid JSON structure"]⟩ ∧
    codeScore (jsTrim "https://example.com/path".data) < 30 ∧
    codeScore (jsTrim "#FF5733".data) < 30 ∧
    codeScore (jsTrim jsonScenario.data) < 30 := by
  refine ⟨by decide, by decide, by decide, by decide, by decide, by decide⟩

theorem jsonLike_head {t : List Char} (h : jsonLike t = true) :
    t.head? = some '{' ∨ t.head? = some '[' := by
  unfold jsonLike at h
  simp only [Bool.or_eq_true, Bool.and_eq_true, beq_iff_eq] at h
  rcases h with ⟨h1, _⟩ | ⟨h1, _⟩
  · exact Or.inl h1
  · exact Or.inr h1

theorem apiMatchers_false_of_jsonLike {t : List Char} (h : jsonLike t = true) :
    matchOpenAIKey t = false ∧ matchStripeKey t = false ∧ matchGithubToken t = false := by
  rcases jsonLike_head h with h1 | h1 <;>
    (cases t with
     | nil => simp at h1
     | cons c rest =>
         simp only [List.head?_cons, Option.some.injEq] at h1
         subst h1
         exact ⟨rfl, rfl, rfl⟩)

theorem analyzeAfterJson_total (t : List Char) :
    (analyzeAfterJson t).type ∈ contentTypeEnum ∧ (analyzeAfterJson t).confidence ≤ 100 := by
  unfold analyzeAfterJson
  split_ifs <;> exact ⟨by decide, by decide⟩

theorem analyzeCore_total (t : List Char) :
    (analyzeCore t).type ∈ contentTypeEnum ∧ (analyzeCore t).confidence ≤ 100 := by
  unfold analyzeCore
  split_ifs
  · exact ⟨by decide, by decide⟩
  · exact ⟨by decide, by decide⟩
  · exact ⟨by decide, by decide⟩
  · exact ⟨show "code" ∈ contentTypeEnum by decide,
           le_trans (Nat.min_le_left _ _) (by norm_num)⟩
  · exact ⟨by decide, by decide⟩
  · exact analyzeAfterJson_total t
  · exact analyzeAfterJson_total t

/-- Claim C4 (amended): the classifier is total with a result type from the
fixed enumeration and confidence in [0, 100]; and a failed `JSON.parse` on
brace/bracket-bounded input never escapes — it continues with the remaining
rules (URL, email, image, color, entropy, text fallback) rather than jumping
straight to the text fallback. -/
theorem classify_total_and_json_fallthrough :
    (∀ s : String, (analyzeContentType s).type ∈ contentTypeEnum ∧
      (analyzeContentType s).confidence ≤ 100) ∧
    (∀ s : String, jsonLike (jsTrim s.data) = true → jsonValid (jsTrim s.data) = false →
      codeScore (jsTrim s.data) < 30 →
      analyzeContentType s = analyzeAfterJson (jsTrim s.data)) := by
  constructor
  · intro s
    exact analyzeCore_total (jsTrim s.data)
  · intro s hjl hjv hcs
    obtain ⟨h1, h2, h3⟩ := apiMatchers_false_of_jsonLike hjl
    unfold analyzeContentType analyzeCore
    rw [if_neg (by simp [h1]), if_neg (by simp [h2]), if_neg (by simp [h3]),
      if_neg (by omega), if_pos hjl, if_neg (by simp [hjv])]

/-- Claim C4 counterexample: a brace-bounded input that fails `JSON.parse`
does not fall through to the text/60 fallback — it is classified as
`password` with confidence 70 by the later entropy rule. -/
theorem classify_json_failure_counterexample :
    jsonLike (jsTrim c4Input.data) = true ∧
    jsonValid (jsTrim c4Input.data) = false ∧
    analyzeContentType c4Input =
      ⟨"password", 70, ["High entropy with mixed character types"]⟩ :=
  ⟨by decide, by decide, by decide⟩

/-- Claim C4 witness: the amended fall-through conjunct instantiated at the
counterexample input. -/
theorem classify_total_and_json_fallthrough_witness :
    analyzeContentType c4Input = analyzeAfterJson (jsTrim c4Input.data) :=
  classify_total_and_json_fallthrough.2 c4Input (by decide) (by decide) (by decide)

/-- Claim C5: the Enhanced Detector adopts the platform heuristic verbatim
above confidence 70; otherwise a usable OS-detected app label at confidence
60; otherwise the heuristic's label with confidence floored at 30 — and the
content type always comes from the classifier. -/
theorem enhancedDetection_policy (content app : String) :
    (enhancedDetection content app).contentType = (analyzeContentType content).type ∧
    (70 < (detectSourcePlatform content).confidence →
      (enhancedDetection content app).sourceApp = (detectSourcePlatform content).platform ∧
      (enhancedDetection content app).confidence = (detectSourcePlatform content).confidence) ∧
    ((detectSourcePlatform content).confidence ≤ 70 → app ≠ "" → app ≠ "System" →
      app ≠ "Finder" →
      (enhancedDetection content app).sourceApp = app ∧
      (enhancedDetection content app).confidence = 60) ∧
    ((detectSourcePlatform content).confidence ≤ 70 →
      (app = "" ∨ app = "System" ∨ app = "Finder") →
      (enhancedDetection content app).sourceApp = (detectSourcePlatform content).platform ∧
      (enhancedDetection content app).confidence = max 30 (detectSourcePlatform content).confidence) := by
  simp only [enhancedDetection]
  split_ifs with h1 h2
  · exact ⟨rfl, fun _ => ⟨rfl, rfl⟩,
      fun hle => ((Nat.not_lt.mpr hle) h1).elim,
      fun hle => ((Nat.not_lt.mpr hle) h1).elim⟩
  · refine ⟨rfl, fun hgt => (h1 hgt).elim, fun _ _ _ _ => ⟨rfl, rfl⟩, fun _ hor => ?_⟩
    obtain ⟨ha, hb, hc⟩ := h2
    rcases hor with h | h | h
    · exact (ha h).elim
    · exact (hb h).elim
    · exact (hc h).elim
  · refine ⟨rfl, fun hgt => (h1 hgt).elim, fun _ ha hb hc => (h2 ⟨ha, hb, hc⟩).elim,
      fun _ _ => ⟨rfl, rfl⟩⟩

/-- Claim C5 witness: the second branch at a concrete input — low heuristic
confidence, usable detected app. -/
theorem enhancedDetection_policy_witness :
    (enhancedDetection "hello world" "Chrome").sourceApp = "Chrome" ∧
    (enhancedDetection "hello world" "Chrome").confidence = 60 :=
  (enhancedDetection_policy "hello world" "Chrome").2.2.1 (by decide) (by decide)
    (by decide) (by decide)

/-- Claim C10: whitespace-trim invariance — classification factors through
`String.prototype.trim`, so trimming the input first never changes the
result. -/
theorem classify_trim_invariant (s : String) :
    analyzeContentType s = analyzeContentType (jsTrimStr s) := by
  show analyzeCore (jsTrim s.data) = analyzeCore (jsTrim (jsTrim s.data))
  rw [jsTrim_idem]

theorem clipboardTick_text (st : PollState) {text : String} (img : Option String)
    (app : String) (now : Int) (hne : text ≠ "") :
    clipboardTick st text img app now = tickWithContent st text app now := by
  simp only [clipboardTick]
  rw [if_neg hne]

/-- Claim C6 (amended): on a tick whose content differs byte-for-byte from
the last-seen content, the change proceeds (to the suppression check and, if
unsuppressed, to a capture event) exactly when all three hold — fingerprint
differs from the last processed fingerprint, trimmed content differs from
the last-seen trimmed content, and more than 500 ms have elapsed since the
last processed change; if any of the three fails the tick is a silent no-op. -/
theorem tick_debounce (st : PollState) (text app : String) (now : Int)
    (hne : text ≠ "") (hch : text ≠ st.lastClipboardContent) :
    (¬(contentHash text ≠ st.lastClipboardHash ∧
        jsTrimStr text ≠ jsTrimStr st.lastClipboardContent ∧
        500 < now - st.lastProcessedTime) →
      clipboardTick st text none app now = ⟨st, none⟩) ∧
    ((contentHash text ≠ st.lastClipboardHash ∧
        jsTrimStr text ≠ jsTrimStr st.lastClipboardContent ∧
        500 < now - st.lastProcessedTime) →
      (now < st.internalCopyUntil →
        clipboardTick st text none app now =
          ⟨{ st with lastClipboardContent := text }, none⟩) ∧
      (st.internalCopyUntil ≤ now →
        (clipboardTick st text none app now).event =
          some ⟨text, now, (enhancedDetection text app).contentType,
                (enhancedDetection text app).sourceApp,
                (enhancedDetection text app).confidence,
                (enhancedDetection text app).reasoning⟩)) := by
  rw [clipboardTick_text st none app now hne]
  unfold tickWithContent
  rw [if_neg hch]
  constructor
  · intro h
    rw [if_neg h]
  · intro h
    rw [if_pos h]
    constructor
    · intro hlt
      rw [if_pos hlt]
    · intro hge
      rw [if_neg (not_lt.mpr hge)]

/-- Claim C6 witness: a changed clipboard where all three conditions hold and
no suppression is armed emits a capture event. -/
theorem tick_debounce_witness :
    (clipboardTick initialPollState "hello" none "Chrome" 1000).event =
      some ⟨"hello", 1000, (enhancedDetection "hello" "Chrome").contentType,
            (enhancedDetection "hello" "Chrome").sourceApp,
            (enhancedDetection "hello" "Chrome").confidence,
            (enhancedDetection "hello" "Chrome").reasoning⟩ :=
  ((tick_debounce initialPollState "hello" "Chrome" 1000 (by decide)
      (by decide)).2 ⟨by decide, by decide, by decide⟩).2 (by decide)

/-- Claim C6 counterexample: after capturing a 101-character string, a tick
sees a different string with the same length/prefix/suffix fingerprint; the
trimmed contents differ, more than 500 ms elapsed and no suppression is
armed, yet the tick is skipped — because the code skips whenever ANY of the
three conditions (fingerprint equal, trimmed equal, within 500 ms) holds,
not only when all three hold. -/
theorem tick_debounce_counterexample :
    cexContentB ≠ cexPollState.lastClipboardContent ∧
    jsTrimStr cexContentB ≠ jsTrimStr cexPollState.lastClipboardContent ∧
    500 < (2000 : Int) - cexPollState.lastProcessedTime ∧
    cexPollState.internalCopyUntil ≤ 2000 ∧
    contentHash cexContentB = cexPollState.lastClipboardHash ∧
    (clipboardTick cexPollState cexContentB none "SomeApp" 2000).event = none ∧
    (clipboardTick cexPollState cexContentB none "SomeApp" 2000).state = cexPollState :=
  ⟨by decide, by decide, by decide, by decide, by decide, by decide, by decide⟩

/-- Claim C7: arming self-write suppression and then letting the poller read
exactly the suppressed content produces no capture event and only updates the
last-seen content; the next tick (1000 ms later, when the 1000 ms suppression
window has lapsed) observing genuinely different content still produces a
capture event. -/
theorem selfwrite_suppression (st : PollState) (s d app1 app2 : String)
    (a t1 t2 : Int)
    (hsne : s ≠ "") (hs0 : s ≠ st.lastClipboardContent)
    (hs1 : contentHash s ≠ st.lastClipboardHash)
    (hs2 : jsTrimStr s ≠ jsTrimStr st.lastClipboardContent)
    (hs3 : 500 < t1 - st.lastProcessedTime)
    (ht1 : t1 < a + 1000) (harm : a ≤ t1)
    (hdne : d ≠ "") (hds : d ≠ s)
    (hdh : contentHash d ≠ st.lastClipboardHash)
    (hdt : jsTrimStr d ≠ jsTrimStr s)
    (hdp : 500 < t2 - st.lastProcessedTime)
    (hnext : t2 = t1 + 1000) :
    (clipboardTick (setClipboardText st a) s none app1 t1).event = none ∧
    (clipboardTick (setClipboardText st a) s none app1 t1).state.lastClipboardContent = s ∧
    ((clipboardTick ((clipboardTick (setClipboardText st a) s none app1 t1).state)
        d none app2 t2).event).isSome = true := by
  have hstep1 : clipboardTick (setClipboardText st a) s none app1 t1 =
      ⟨⟨s, st.lastClipboardHash, st.lastProcessedTime, a + 1000⟩, none⟩ := by
    rw [clipboardTick_text _ none app1 t1 hsne]
    unfold tickWithContent setClipboardText
    rw [if_neg hs0, if_pos ⟨hs1, hs2, hs3⟩, if_pos ht1]
  refine ⟨by rw [hstep1], by rw [hstep1], ?_⟩
  rw [hstep1]
  rw [clipboardTick_text _ none app2 t2 hdne]
  unfold tickWithContent
  rw [if_neg hds, if_pos ⟨hdh, hdt, hdp⟩,
    if_neg (show ¬t2 < a + 1000 by omega)]
  rfl

/-- Claim C7 witness: a concrete arm-then-read-back scenario followed by a
different copy on the next tick. -/
theorem selfwrite_suppression_witness :
    (clipboardTick (setClipboardText initialPollState 5000) "secret" none "X" 5500).event =
      none ∧
    (clipboardTick (setClipboardText initialPollState 5000) "secret" none "X"
        5500).state.lastClipboardContent = "secret" ∧
    ((clipboardTick ((clipboardTick (setClipboardText initialPollState 5000) "secret" none
        "X" 5500).state) "other" none "Y" 6500).event).isSome = true :=
  selfwrite_suppression initialPollState "secret" "other" "X" "Y" 5000 5500 6500
    (by decide) (by decide) (by decide) (by decide) (by decide) (by decide) (by decide)
    (by decide) (by decide) (by decide) (by decide) (by decide) (by decide)

/-! ## Retention-manager lemmas -/

theorem mem_store_of_getItems {store : List ClipboardItem} {n : Nat} {x : ClipboardItem}
    (h : x ∈ getClipboardItems store n) : x ∈ store :=
  (List.perm_insertionSort _ store).mem_iff.mp (List.mem_of_mem_take h)

theorem getItems_perm_of_le {store : List ClipboardItem}
    (h : store.length ≤ 1000) : (getClipboardItems store 1000).Perm store := by
  unfold getClipboardItems dbSort
  rw [List.take_of_length_le (by rw [List.length_insertionSort]; exact h)]
  exact List.perm_insertionSort _ store

theorem same_id_eq {store : List ClipboardItem}
    (hids : store.Pairwise (fun a b => a.id ≠ b.id))
    {x y : ClipboardItem} (hx : x ∈ store) (hy : y ∈ store) (hxy : x.id = y.id) : x = y := by
  by_contra hne
  have hsymm : Symmetric (fun a b : ClipboardItem => a.id ≠ b.id) :=
    fun a b h e => h e.symm
  exact hids.forall hsymm hx hy hne hxy

theorem same_content_eq {store : List ClipboardItem}
    (hc : store.Pairwise (fun a b => a.content ≠ b.content))
    {x y : ClipboardItem} (hx : x ∈ store) (hy : y ∈ store)
    (hxy : x.content = y.content) : x = y := by
  by_contra hne
  have hsymm : Symmetric (fun a b : ClipboardItem => a.content ≠ b.content) :=
    fun a b h e => h e.symm
  exact hc.forall hsymm hx hy hne hxy

theorem cleanupOldItems_eq (s : Settings) (now : Int) (store : List ClipboardItem) :
    cleanupOldItems s now store =
      (countPass s (getClipboardItems store 1000) store).filter
        (fun j => !((oldItems s now (getClipboardItems store 1000)).any
          (fun d => d.id == j.id))) := rfl

theorem cleanup_sublist (s : Settings) (now : Int) (store : List ClipboardItem) :
    (cleanupOldItems s now store).Sublist store := by
  rw [cleanupOldItems_eq]
  refine List.Sublist.trans (List.filter_sublist _) ?_
  unfold countPass
  split_ifs
  · exact List.filter_sublist _
  · exact List.Sublist.refl _

/-- Claim C2: the protection invariant — an item that is pinned or has a
non-empty categories list, present before eviction, is still present after
both eviction passes (ids are IndexedDB keys, hence pairwise distinct). -/
theorem cleanup_preserves_protected (s : Settings) (now : Int)
    (store : List ClipboardItem)
    (hids : store.Pairwise (fun a b => a.id ≠ b.id))
    (p : ClipboardItem) (hp : p ∈ store) (hprot : isProtectedItem p = true) :
    p ∈ cleanupOldItems s now store := by
  have hne : ∀ d : ClipboardItem, d ∈ store → isProtectedItem d = false → ¬(d.id = p.id) := by
    intro d hd hdp he
    rw [same_id_eq hids hd hp he] at hdp
    rw [hprot] at hdp
    exact Bool.true_eq_false.mp hdp
  rw [cleanupOldItems_eq]
  apply List.mem_filter.mpr
  refine ⟨?_, ?_⟩
  · unfold countPass
    split_ifs
    · apply List.mem_filter.mpr
      refine ⟨hp, ?_⟩
      rw [Bool.not_eq_true', List.any_eq_false]
      intro d hd
      have hdm := List.mem_of_mem_drop hd
      obtain ⟨hdi, hdp⟩ := List.mem_filter.mp hdm
      rw [Bool.not_eq_true'] at hdp
      rw [beq_iff_eq]
      exact hne d (mem_store_of_getItems hdi) hdp
    · exact hp
  · rw [Bool.not_eq_true', List.any_eq_false]
    intro d hd
    obtain ⟨hdi, hdp⟩ := List.mem_filter.mp hd
    rw [Bool.and_eq_true] at hdp
    obtain ⟨-, hdp2⟩ := hdp
    rw [Bool.not_eq_true'] at hdp2
    rw [beq_iff_eq]
    exact hne d (mem_store_of_getItems hdi) hdp2

/-- Claim C2 witness: a pinned item and a categorized item both survive a
cleanup that evicts an unprotected one. -/
theorem cleanup_preserves_protected_witness :
    (⟨"p1", "a", "text", 1, "App", true, []⟩ : ClipboardItem) ∈
      cleanupOldItems ⟨1, 30⟩ 0
        [⟨"p1", "a", "text", 1, "App", true, []⟩,
         ⟨"e1", "b", "text", 2, "App", false, []⟩,
         ⟨"e2", "c", "text", 3, "App", false, []⟩] :=
  cleanup_preserves_protected ⟨1, 30⟩ 0
    [⟨"p1", "a", "text", 1, "App", true, []⟩,
     ⟨"e1", "b", "text", 2, "App", false, []⟩,
     ⟨"e2", "c", "text", 3, "App", false, []⟩]
    (by decide) ⟨"p1", "a", "text", 1, "App", true, []⟩ (by decide) (by decide)

/-- Count bound shared by C3 and C1: for a store that fits the 1000-item
fetch window, after cleanup at most `maxItems` unprotected items remain. -/
theorem countPass_pos {s : Settings} {items store : List ClipboardItem}
    (h : s.maxItems < items.length) :
    countPass s items store =
      store.filter (fun j => !((itemsToDelete s items).any (fun d => d.id == j.id))) := by
  unfold countPass
  rw [if_pos h]

theorem countPass_neg {s : Settings} {items store : List ClipboardItem}
    (h : ¬s.maxItems < items.length) : countPass s items store = store := by
  unfold countPass
  rw [if_neg h]

theorem countP_imp_le (P Q : ClipboardItem → Bool) (l : List ClipboardItem)
    (h : ∀ a ∈ l, P a = true → Q a = true) : List.countP P l ≤ List.countP Q l :=
  List.countP_mono_left h

theorem cleanup_evictable_le (s : Settings) (now : Int) (store : List ClipboardItem)
    (hlen : store.length ≤ 1000) :
    ((cleanupOldItems s now store).filter (fun i => !(isProtectedItem i))).length ≤
      s.maxItems := by
  have hperm := getItems_perm_of_le hlen
  by_cases hc : s.maxItems < (getClipboardItems store 1000).length
  · have hre : cleanupOldItems s now store =
        (store.filter (fun j => !((itemsToDelete s (getClipboardItems store 1000)).any
            (fun d => d.id == j.id)))).filter
          (fun j => !((oldItems s now (getClipboardItems store 1000)).any
            (fun d => d.id == j.id))) := by
      rw [cleanupOldItems_eq, countPass_pos hc]
    rw [hre, List.filter_filter, List.filter_filter, ← List.countP_eq_length_filter]
    refine le_trans (countP_imp_le _ (fun a =>
      (!((itemsToDelete s (getClipboardItems store 1000)).any (fun d => d.id == a.id))) &&
      (!(isProtectedItem a))) store ?_) ?_
    · intro a _ hpa
      simp only [Bool.and_eq_true] at hpa ⊢
      exact ⟨hpa.2, hpa.1.1⟩
    · rw [← hperm.countP_eq, ← List.countP_filter]
      conv_lhs =>
        rw [← List.take_append_drop s.maxItems
          ((getClipboardItems store 1000).filter (fun i => !(isProtectedItem i)))]
      rw [List.countP_append]
      have hzero : List.countP
          (fun a => !((itemsToDelete s (getClipboardItems store 1000)).any
            (fun d => d.id == a.id)))
          (((getClipboardItems store 1000).filter
            (fun i => !(isProtectedItem i))).drop s.maxItems) = 0 := by
        apply List.countP_eq_zero.mpr
        intro d hd
        have hany : (itemsToDelete s (getClipboardItems store 1000)).any
            (fun x => x.id == d.id) = true :=
          List.any_eq_true.mpr ⟨d, hd, by simp⟩
        simp [hany]
      rw [hzero, Nat.add_zero]
      exact le_trans (List.countP_le_length _) (List.length_take_le _ _)
  · have hre : cleanupOldItems s now store =
        store.filter (fun j =>
          !((oldItems s now (getClipboardItems store 1000)).any (fun d => d.id == j.id))) := by
      rw [cleanupOldItems_eq, countPass_neg hc]
    rw [hre]
    refine le_trans ((List.filter_sublist _).length_le) ?_
    refine le_trans ((List.filter_sublist _).length_le) ?_
    rw [← hperm.length_eq]
    omega

/-- Claim C3 counterexample: a store of one pinned and one evictable item
with `maxItems = 1` exceeds the limit, yet `cleanupOldItems` deletes nothing
— `deletableItems.slice(maxItems)` is empty because the slice index is taken
in the deletable-only list — so the total count stays above the limit,
contradicting "deleted until the total count is at or under the limit". -/
theorem count_eviction_counterexample :
    Settings.maxItems ⟨1, 30⟩ < List.length [c3Protected, c3Evictable] ∧
    isProtectedItem c3Evictable = false ∧
    cleanupOldItems ⟨1, 30⟩ 100 [c3Protected, c3Evictable] = [c3Protected, c3Evictable] ∧
    Settings.maxItems ⟨1, 30⟩ < (cleanupOldItems ⟨1, 30⟩ 100 [c3Protected, c3Evictable]).length :=
  ⟨by decide, by decide, by decide, by decide⟩

/-- Claim C3 (amended): the count-based pass keeps only the `maxItems` most
recent evictable items (for stores within the 1000-item fetch window) — the
total count can stay above the limit when protected items are present; in
the concrete scenario of 101 evictable items, no protected items and
max = 100, exactly the single oldest evictable item is deleted. -/
theorem count_eviction_policy :
    (∀ (s : Settings) (now : Int) (store : List ClipboardItem), store.length ≤ 1000 →
      ((cleanupOldItems s now store).filter (fun i => !(isProtectedItem i))).length ≤
        s.maxItems) ∧
    cleanupOldItems ⟨100, 30⟩ 0 ((List.range 101).map c3Item) =
      (List.range 100).map c3Item :=
  ⟨fun s now store h => cleanup_evictable_le s now store h, by decide⟩

/-- Claim C3 witness: the general bound instantiated at a concrete
two-item store with `maxItems = 1`. -/
theorem count_eviction_policy_witness :
    ((cleanupOldItems ⟨1, 30⟩ 100 [c3Protected, c3Evictable]).filter
      (fun i => !(isProtectedItem i))).length ≤ 1 :=
  count_eviction_policy.1 ⟨1, 30⟩ 100 [c3Protected, c3Evictable] (by decide)

/-- Claim C8 (amended): recency-bump merge — for every store that fits the
1000-item window searched by `findClipboardItemByContent` (with distinct ids
and contents), ingesting an item whose content matches a stored item E keeps
exactly one item of that content, preserving E's id, isPinned and categories
while taking the new timestamp, and persists as an update: the store's
length is unchanged (no new record).  On stores beyond 1000 items the lookup
can miss E and the code inserts a duplicate instead (see the
counterexample). -/
theorem recency_bump (s : Settings) (now : Int) (store : List ClipboardItem)
    (hids : store.Pairwise (fun a b => a.id ≠ b.id))
    (hcont : store.Pairwise (fun a b => a.content ≠ b.content))
    (hlen : store.length ≤ 1000)
    (E N : ClipboardItem) (hE : E ∈ store) (hcn : N.content = E.content) :
    (addClipboardItem s now store N).length = store.length ∧
    (addClipboardItem s now store N).Pairwise (fun a b => a.content ≠ b.content) ∧
    ∃ u, u ∈ addClipboardItem s now store N ∧
      u.id = E.id ∧ u.isPinned = E.isPinned ∧ u.categories = E.categories ∧
      u.timestamp = N.timestamp ∧ u.content = E.content := by
  have hperm := getItems_perm_of_le hlen
  have hEi : E ∈ getClipboardItems store 1000 := hperm.mem_iff.mpr hE
  have hsome : (findClipboardItemByContent store N.content).isSome := by
    unfold findClipboardItemByContent
    rw [List.find?_isSome]
    exact ⟨E, hEi, by rw [beq_iff_eq]; exact hcn.symm⟩
  obtain ⟨f, hf⟩ := Option.isSome_iff_exists.mp hsome
  have hf' : (getClipboardItems store 1000).find? (fun i => i.content == N.content) = some f :=
    hf
  have hfm : f ∈ store := mem_store_of_getItems (List.mem_of_find?_eq_some hf')
  have hfc : f.content = N.content := by
    have := List.find?_some hf'
    rwa [beq_iff_eq] at this
  have hfE : f = E := same_content_eq hcont hfm hE (by rw [hfc, hcn])
  subst hfE
  have hadd : addClipboardItem s now store N =
      store.map (fun j => if j.id == f.id then
        { f with
          timestamp := N.timestamp,
          source := if N.source = "" then f.source else N.source,
          itemType := if N.itemType = "" then f.itemType else N.itemType }
        else j) := by
    unfold addClipboardItem
    rw [hf]
  have hgc : ∀ x ∈ store, (if x.id == f.id then
      ({ f with
        timestamp := N.timestamp,
        source := if N.source = "" then f.source else N.source,
        itemType := if N.itemType = "" then f.itemType else N.itemType } : ClipboardItem)
      else x).content = x.content := by
    intro x hx
    by_cases h : x.id = f.id
    · have hxf : x = f := same_id_eq hids hx hfm h
      rw [if_pos (by rw [beq_iff_eq]; exact h)]
      rw [hxf]
    · rw [if_neg (by rw [beq_iff_eq]; exact h)]
  refine ⟨?_, ?_, ?_⟩
  · rw [hadd, List.length_map]
  · rw [hadd, List.pairwise_map]
    exact List.Pairwise.imp_of_mem
      (fun ha hb hr => by rw [hgc _ ha, hgc _ hb]; exact hr) hcont
  · refine ⟨{ f with
        timestamp := N.timestamp,
        source := if N.source = "" then f.source else N.source,
        itemType := if N.itemType = "" then f.itemType else N.itemType }, ?_, rfl, rfl, rfl,
      rfl, rfl⟩
    rw [hadd]
    exact List.mem_map.mpr ⟨f, hfm, by rw [if_pos (by rw [beq_iff_eq])]⟩

/-- Claim C8 witness: re-ingesting the content of a pinned, categorized item
updates it in place. -/
theorem recency_bump_witness :
    (addClipboardItem ⟨100, 30⟩ 9 [⟨"a", "X", "text", 1, "App", true, ["cat"]⟩]
        ⟨"b", "X", "code", 9, "Term", false, []⟩).length = 1 ∧
    (addClipboardItem ⟨100, 30⟩ 9 [⟨"a", "X", "text", 1, "App", true, ["cat"]⟩]
        ⟨"b", "X", "code", 9, "Term", false, []⟩).Pairwise
      (fun a b => a.content ≠ b.content) ∧
    ∃ u, u ∈ addClipboardItem ⟨100, 30⟩ 9 [⟨"a", "X", "text", 1, "App", true, ["cat"]⟩]
        ⟨"b", "X", "code", 9, "Term", false, []⟩ ∧
      u.id = "a" ∧ u.isPinned = true ∧ u.categories = ["cat"] ∧
      u.timestamp = 9 ∧ u.content = "X" :=
  recency_bump ⟨100, 30⟩ 9 [⟨"a", "X", "text", 1, "App", true, ["cat"]⟩]
    (by decide) (by decide) (by decide)
    ⟨"a", "X", "text", 1, "App", true, ["cat"]⟩ ⟨"b", "X", "code", 9, "Term", false, []⟩
    (by decide) (by decide)

theorem cleanup_id_of_large_max (s : Settings) (now : Int) (store : List ClipboardItem)
    (hmax : 1000 ≤ s.maxItems)
    (hage : ∀ x ∈ store, ¬(x.timestamp < now - (s.autoDeleteDays : Int) * 86400000)) :
    cleanupOldItems s now store = store := by
  have h1 : (getClipboardItems store 1000).length ≤ 1000 := List.length_take_le _ _
  rw [cleanupOldItems_eq, countPass_neg (by omega)]
  have hold : oldItems s now (getClipboardItems store 1000) = [] := by
    apply List.filter_eq_nil_iff.mpr
    intro a ha
    simp [hage a (mem_store_of_getItems ha)]
  rw [hold]
  simp

theorem addClipboardItem_insert (s : Settings) (now : Int) (store : List ClipboardItem)
    (item : ClipboardItem)
    (hfind : findClipboardItemByContent store item.content = none) :
    addClipboardItem s now store item = cleanupOldItems s now (store ++ [item]) := by
  unfold addClipboardItem
  rw [hfind]

theorem findByContent_none (store : List ClipboardItem) (c : String)
    (h : ∀ x ∈ getClipboardItems store 1000, x.content ≠ c) :
    findClipboardItemByContent store c = none := by
  unfold findClipboardItemByContent
  rw [List.find?_eq_none]
  intro x hx
  simp only [beq_iff_eq]
  exact h x hx

theorem c1Content_ne {i j : Nat} (h : i ≠ j) : c1Content i ≠ c1Content j := by
  intro he
  apply h
  have h3 := congrArg (fun s : String => s.data.length) he
  simpa [c1Content] using h3

theorem c1_store_sorted (n : Nat) :
    List.Sorted (fun a b : ClipboardItem => b.timestamp ≤ a.timestamp)
      ((List.range n).map c1Item) := by
  apply List.pairwise_map.mpr
  apply (List.pairwise_lt_range n).imp
  intro i j hij
  show (2000 : Int) - (j : Int) ≤ (2000 : Int) - (i : Int)
  omega

theorem c1_getItems (n : Nat) (hn : n ≤ 1000) :
    getClipboardItems ((List.range n).map c1Item) 1000 = (List.range n).map c1Item := by
  unfold getClipboardItems dbSort
  rw [List.Sorted.insertionSort_eq (c1_store_sorted n)]
  exact List.take_of_length_le (by simp [hn])

theorem c1_find_none (n : Nat) (hn : n ≤ 1000) :
    findClipboardItemByContent ((List.range n).map c1Item) (c1Content n) = none := by
  apply findByContent_none
  rw [c1_getItems n hn]
  intro x hx
  obtain ⟨j, hj, rfl⟩ := List.mem_map.mp hx
  exact c1Content_ne (Nat.ne_of_lt (List.mem_range.mp hj))

theorem c1_fold : ∀ k, k ≤ 1001 →
    ((List.range k).map (fun i => (c1Item i, (0 : Int)))).foldl
      (fun st e => addClipboardItem c1Settings e.2 st e.1) [] =
    (List.range k).map c1Item := by
  intro k
  induction k with
  | zero => intro _; rfl
  | succ n ih =>
      intro hk
      have hn : n ≤ 1000 := by omega
      rw [List.range_succ, List.map_append, List.foldl_append, ih (by omega),
        List.map_cons, List.map_nil, List.foldl_cons, List.foldl_nil]
      have hage : ∀ x ∈ (List.range n).map c1Item ++ [c1Item n],
          ¬(x.timestamp < 0 - (c1Settings.autoDeleteDays : Int) * 86400000) := by
        intro x hx
        have hxj : ∃ j, j ≤ n ∧ x = c1Item j := by
          rcases List.mem_append.mp hx with h | h
          · obtain ⟨j, hj, rfl⟩ := List.mem_map.mp h
            exact ⟨j, Nat.le_of_lt (List.mem_range.mp hj), rfl⟩
          · exact ⟨n, le_rfl, List.mem_singleton.mp h⟩
        obtain ⟨j, hj, rfl⟩ := hxj
        simp only [c1Settings, c1Item]
        omega
      have hstep : addClipboardItem c1Settings 0 ((List.range n).map c1Item) (c1Item n) =
          (List.range (n + 1)).map c1Item := by
        rw [addClipboardItem_insert _ _ _ _ (c1_find_none n hn),
          cleanup_id_of_large_max _ _ _ (by decide) hage,
          List.range_succ, List.map_append]
        rfl
      rw [← List.range_succ]
      exact hstep

/-- Re-ingesting the oldest item's content on the 1001-item store misses the
duplicate: `findClipboardItemByContent` only scans the 1000 most recent
items, so the call takes the insert path and appends a second record.  Shared
by the C1 and C8 counterexamples. -/
theorem c1_add_dup :
    addClipboardItem c1Settings 0 ((List.range 1001).map c1Item) c1Dup =
      (List.range 1001).map c1Item ++ [c1Dup] := by
  have hfind : findClipboardItemByContent ((List.range 1001).map c1Item) c1Dup.content =
      none := by
    apply findByContent_none
    have hitems : getClipboardItems ((List.range 1001).map c1Item) 1000 =
        (List.range 1000).map c1Item := by
      unfold getClipboardItems dbSort
      rw [List.Sorted.insertionSort_eq (c1_store_sorted 1001), ← List.map_take,
        List.take_range]
      norm_num
    rw [hitems]
    intro x hx
    obtain ⟨j, hj, rfl⟩ := List.mem_map.mp hx
    exact c1Content_ne (Nat.ne_of_lt (List.mem_range.mp hj))
  have hage2 : ∀ x ∈ (List.range 1001).map c1Item ++ [c1Dup],
      ¬(x.timestamp < 0 - (c1Settings.autoDeleteDays : Int) * 86400000) := by
    intro x hx
    rcases List.mem_append.mp hx with h | h
    · obtain ⟨j, hj, rfl⟩ := List.mem_map.mp h
      have := List.mem_range.mp hj
      simp only [c1Settings, c1Item]
      omega
    · rw [List.mem_singleton.mp h]
      simp only [c1Settings, c1Dup]
      omega
  rw [addClipboardItem_insert _ _ _ _ hfind,
    cleanup_id_of_large_max _ _ _ (by decide) hage2]

/-- Claim C1 counterexample: with `maxItems = 2000`, ingesting 1001 items of
distinct contents (all recent, all unprotected) grows the store to 1001
items; `findClipboardItemByContent` searches only the 1000 most recent, so
re-ingesting the content of the oldest item misses the duplicate and inserts
a second item with identical content. -/
theorem dedup_counterexample :
    ¬ (ingestAll c1Settings c1Events).Pairwise (fun a b => a.content ≠ b.content) := by
  have hfold : ingestAll c1Settings c1Events =
      (List.range 1001).map c1Item ++ [c1Dup] := by
    unfold ingestAll c1Events
    rw [List.foldl_append, c1_fold 1001 le_rfl, List.foldl_cons, List.foldl_nil]
    show addClipboardItem c1Settings 0 ((List.range 1001).map c1Item) c1Dup = _
    rw [c1_add_dup]
  intro hpw
  rw [hfold] at hpw
  have hcross := (List.pairwise_append.mp hpw).2.2 (c1Item 1000)
    (List.mem_map.mpr ⟨1000, List.mem_range.mpr (by omega), rfl⟩)
    c1Dup (List.mem_singleton.mpr rfl)
  exact hcross rfl

/-- Single-step preservation for the amended deduplication invariant: under
`maxItems ≤ 999` (so the store always fits the 1000-item lookup window), an
ingest of a fresh-id unprotected item preserves distinct contents, distinct
ids, the length bound and unprotectedness, and introduces no id other than
the item's own. -/
theorem addClipboardItem_preserves (s : Settings) (hmax : s.maxItems ≤ 999)
    (now : Int) (store : List ClipboardItem) (item : ClipboardItem)
    (h1 : store.Pairwise (fun a b => a.content ≠ b.content))
    (h2 : store.Pairwise (fun a b => a.id ≠ b.id))
    (h3 : store.length ≤ s.maxItems)
    (h4 : ∀ x ∈ store, isProtectedItem x = false)
    (hitem : isProtectedItem item = false)
    (hfresh : ∀ x ∈ store, x.id ≠ item.id) :
    (addClipboardItem s now store item).Pairwise (fun a b => a.content ≠ b.content) ∧
    (addClipboardItem s now store item).Pairwise (fun a b => a.id ≠ b.id) ∧
    (addClipboardItem s now store item).length ≤ s.maxItems ∧
    (∀ x ∈ addClipboardItem s now store item, isProtectedItem x = false) ∧
    (∀ x ∈ addClipboardItem s now store item,
      x.id = item.id ∨ ∃ y ∈ store, x.id = y.id) := by
  cases hfind : findClipboardItemByContent store item.content with
  | some f =>
      have hf' : (getClipboardItems store 1000).find?
          (fun i => i.content == item.content) = some f := hfind
      have hfm : f ∈ store := mem_store_of_getItems (List.mem_of_find?_eq_some hf')
      have hadd : addClipboardItem s now store item =
          store.map (fun j => if j.id == f.id then
            { f with
              timestamp := item.timestamp,
              source := if item.source = "" then f.source else item.source,
              itemType := if item.itemType = "" then f.itemType else item.itemType }
            else j) := by
        unfold addClipboardItem
        rw [hfind]
      set g : ClipboardItem → ClipboardItem := fun j => if j.id == f.id then
        { f with
          timestamp := item.timestamp,
          source := if item.source = "" then f.source else item.source,
          itemType := if item.itemType = "" then f.itemType else item.itemType }
        else j with hgdef
      have hgid : ∀ x, (g x).id = x.id := by
        intro x
        by_cases hb : x.id = f.id
        · rw [hgdef]
          simp only []
          rw [if_pos (by rw [beq_iff_eq]; exact hb)]
          exact hb.symm
        · rw [hgdef]
          simp only []
          rw [if_neg (by rw [beq_iff_eq]; exact hb)]
      have hgc : ∀ x ∈ store, (g x).content = x.content := by
        intro x hx
        by_cases hb : x.id = f.id
        · have hxf : x = f := same_id_eq h2 hx hfm hb
          rw [hgdef]
          simp only []
          rw [if_pos (by rw [beq_iff_eq]; exact hb), hxf]
        · rw [hgdef]
          simp only []
          rw [if_neg (by rw [beq_iff_eq]; exact hb)]
      have hgp : ∀ x ∈ store, isProtectedItem (g x) = isProtectedItem x := by
        intro x hx
        by_cases hb : x.id = f.id
        · have hxf : x = f := same_id_eq h2 hx hfm hb
          rw [hgdef]
          simp only []
          rw [if_pos (by rw [beq_iff_eq]; exact hb), hxf]
          rfl
        · rw [hgdef]
          simp only []
          rw [if_neg (by rw [beq_iff_eq]; exact hb)]
      refine ⟨?_, ?_, ?_, ?_, ?_⟩
      · rw [hadd, List.pairwise_map]
        exact List.Pairwise.imp_of_mem
          (fun ha hb hr => by rw [hgc _ ha, hgc _ hb]; exact hr) h1
      · rw [hadd, List.pairwise_map]
        exact h2.imp (fun h => by rw [hgid, hgid]; exact h)
      · rw [hadd, List.length_map]
        exact h3
      · rw [hadd]
        intro x hx
        obtain ⟨y, hy, rfl⟩ := List.mem_map.mp hx
        rw [hgp y hy]
        exact h4 y hy
      · rw [hadd]
        intro x hx
        obtain ⟨y, hy, rfl⟩ := List.mem_map.mp hx
        exact Or.inr ⟨y, hy, hgid y⟩
  | none =>
      have hadd := addClipboardItem_insert s now store item hfind
      have hsub := cleanup_sublist s now (store ++ [item])
      have hcross : ∀ a ∈ store, a.content ≠ item.content := by
        intro a ha
        have hai : a ∈ getClipboardItems store 1000 :=
          (getItems_perm_of_le (by omega)).mem_iff.mpr ha
        have := List.find?_eq_none.mp hfind a hai
        simpa [beq_iff_eq] using this
      have happ_cont : (store ++ [item]).Pairwise (fun a b => a.content ≠ b.content) := by
        rw [List.pairwise_append]
        refine ⟨h1, List.pairwise_singleton _ _, ?_⟩
        intro a ha b hb
        rw [List.mem_singleton.mp hb]
        exact hcross a ha
      have happ_id : (store ++ [item]).Pairwise (fun a b => a.id ≠ b.id) := by
        rw [List.pairwise_append]
        refine ⟨h2, List.pairwise_singleton _ _, ?_⟩
        intro a ha b hb
        rw [List.mem_singleton.mp hb]
        exact hfresh a ha
      have hunp_res : ∀ x ∈ cleanupOldItems s now (store ++ [item]),
          isProtectedItem x = false := by
        intro x hx
        have hx2 : x ∈ store ++ [item] := hsub.subset hx
        rcases List.mem_append.mp hx2 with h | h
        · exact h4 x h
        · rw [List.mem_singleton.mp h]
          exact hitem
      refine ⟨?_, ?_, ?_, ?_, ?_⟩
      · rw [hadd]
        exact List.Pairwise.sublist hsub happ_cont
      · rw [hadd]
        exact List.Pairwise.sublist hsub happ_id
      · rw [hadd]
        have hfself : (cleanupOldItems s now (store ++ [item])).filter
            (fun i => !(isProtectedItem i)) = cleanupOldItems s now (store ++ [item]) :=
          List.filter_eq_self.mpr (fun a ha => by rw [hunp_res a ha]; rfl)
        rw [← hfself]
        exact cleanup_evictable_le s now (store ++ [item]) (by simp; omega)
      · rw [hadd]
        exact hunp_res
      · rw [hadd]
        intro x hx
        rcases List.mem_append.mp (hsub.subset hx) with h | h
        · exact Or.inr ⟨x, h, rfl⟩
        · exact Or.inl (by rw [List.mem_singleton.mp h])

theorem ingest_fold_dedup (s : Settings) (hmax : s.maxItems ≤ 999) :
    ∀ (events : List (ClipboardItem × Int)) (store : List ClipboardItem),
      store.Pairwise (fun a b => a.content ≠ b.content) →
      store.Pairwise (fun a b => a.id ≠ b.id) →
      store.length ≤ s.maxItems →
      (∀ x ∈ store, isProtectedItem x = false) →
      (∀ e ∈ events, isProtectedItem e.1 = false) →
      events.Pairwise (fun a b => a.1.id ≠ b.1.id) →
      (∀ e ∈ events, ∀ x ∈ store, x.id ≠ e.1.id) →
      (events.foldl (fun st e => addClipboardItem s e.2 st e.1) store).Pairwise
        (fun a b => a.content ≠ b.content) := by
  intro events
  induction events with
  | nil =>
      intro store hc _ _ _ _ _ _
      simpa using hc
  | cons e rest ih =>
      intro store hc hi hl hup hevup hevids hfresh
      rw [List.foldl_cons]
      obtain ⟨hc', hi', hl', hup', hids'⟩ :=
        addClipboardItem_preserves s hmax e.2 store e.1 hc hi hl hup
          (hevup e (List.mem_cons_self e rest))
          (fun x hx => hfresh e (List.mem_cons_self e rest) x hx)
      refine ih (addClipboardItem s e.2 store e.1) hc' hi' hl' hup' ?_ ?_ ?_
      · intro e' he'
        exact hevup e' (List.mem_cons_of_mem e he')
      · exact (List.pairwise_cons.mp hevids).2
      · intro e' he' x hx
        rcases hids' x hx with heq | ⟨y, hy, hxy⟩
        · rw [heq]
          exact (List.pairwise_cons.mp hevids).1 e' he'
        · rw [hxy]
          exact hfresh e' (List.mem_cons_of_mem e he') y hy

/-- Claim C1 (amended): starting from an empty store, any finite sequence of
ingest calls maintains at most one stored item per distinct content —
provided `maxItems ≤ 999`, so the store never outgrows the 1000-item window
searched by `findClipboardItemByContent`, and the ingested items are
unprotected captures with pairwise-distinct fresh ids. -/
theorem dedup_invariant (s : Settings) (events : List (ClipboardItem × Int))
    (hmax : s.maxItems ≤ 999)
    (hup : ∀ e ∈ events, isProtectedItem e.1 = false)
    (hids : events.Pairwise (fun a b => a.1.id ≠ b.1.id)) :
    (ingestAll s events).Pairwise (fun a b => a.content ≠ b.content) :=
  ingest_fold_dedup s hmax events [] (List.Pairwise.nil) (List.Pairwise.nil)
    (Nat.zero_le _) (fun x hx => absurd hx (List.not_mem_nil x)) hup hids
    (fun _ _ x hx => absurd hx (List.not_mem_nil x))

/-- Claim C1 witness: three unprotected captures, two sharing content, end as
a deduplicated store. -/
theorem dedup_invariant_witness :
    (ingestAll ⟨10, 30⟩
      [(⟨"a", "X", "text", 1, "App", false, []⟩, 1),
       (⟨"b", "Y", "text", 2, "App", false, []⟩, 2),
       (⟨"c", "X", "code", 3, "Term", false, []⟩, 3)]).Pairwise
      (fun a b => a.content ≠ b.content) :=
  dedup_invariant ⟨10, 30⟩
    [(⟨"a", "X", "text", 1, "App", false, []⟩, 1),
     (⟨"b", "Y", "text", 2, "App", false, []⟩, 2),
     (⟨"c", "X", "code", 3, "Term", false, []⟩, 3)]
    (by decide) (by decide) (by decide)

/-- Claim C8 counterexample: the claim's universal "for every store" fails on
a 1001-item store.  E = the oldest item is in the store and the ingested N
has N.content = E.content, yet `findClipboardItemByContent` (capped at the
1000 most recent items) misses E: the ingest takes the insert path, a new
record is created (length grows by one) and two distinct items with the same
content coexist — not an update-in-place merge. -/
theorem recency_bump_counterexample :
    c1Item 1000 ∈ (List.range 1001).map c1Item ∧
    c1Dup.content = (c1Item 1000).content ∧
    (addClipboardItem c1Settings 0 ((List.range 1001).map c1Item) c1Dup).length =
      ((List.range 1001).map c1Item).length + 1 ∧
    c1Item 1000 ∈ addClipboardItem c1Settings 0 ((List.range 1001).map c1Item) c1Dup ∧
    c1Dup ∈ addClipboardItem c1Settings 0 ((List.range 1001).map c1Item) c1Dup ∧
    c1Item 1000 ≠ c1Dup := by
  have hmem : c1Item 1000 ∈ (List.range 1001).map c1Item :=
    List.mem_map.mpr ⟨1000, List.mem_range.mpr (by omega), rfl⟩
  refine ⟨hmem, rfl, ?_, ?_, ?_, ?_⟩
  · rw [c1_add_dup, List.length_append, List.length_singleton]
  · rw [c1_add_dup]
    exact List.mem_append.mpr (Or.inl hmem)
  · rw [c1_add_dup]
    exact List.mem_append.mpr (Or.inr (List.mem_singleton.mpr rfl))
  · intro h
    have ht := congrArg ClipboardItem.timestamp h
    simp only [c1Item, c1Dup] at ht
    omega

end CopyGum
